import Mathlib

/-!
Verification development for the etsy-label merge service.

The repository's core (src/processor.js, served by server.js) is embedded
shallowly below:
* text extraction (`extractLabelData`, `findAllIds`) is modelled on the raw
  text string obtained from the external PDF text extraction capability;
  the JavaScript regular expressions are translated into explicit
  character-list matchers with the same leftmost-match, greedy/lazy
  backtracking semantics;
* the crop/rotate geometry of `processLabels` is modelled over ℚ;
* the bulk reconciliation (`reconcile`, `registerHalves`), the slip
  grouping (`slipLoop`, `extractBulkSlips`, including the JavaScript
  object key enumeration order used by `Object.entries`), and the bulk
  matching loop of the `/merge` endpoint (`bulkMatch`) are modelled as
  pure functions over the extracted values.
-/

namespace EtsyLabel

/-! ### Character classes (JavaScript regex semantics, ASCII coverage) -/

/-- JavaScript whitespace class for the regex escape, restricted to the
characters that can occur in our ASCII-plus-common-Unicode inputs. -/
def isWs (c : Char) : Bool :=
  c = ' ' || c = '\t' || c = '\n' || c = '\r' || c = '\x0b' || c = '\x0c' ||
  c.toNat = 160 || c.toNat = 8232 || c.toNat = 8233 || c.toNat = 65279

def isDigitC (c : Char) : Bool := '0' ≤ c && c ≤ '9'

def isAlphaC (c : Char) : Bool := ('a' ≤ c && c ≤ 'z') || ('A' ≤ c && c ≤ 'Z')

/-- ASCII lower-casing, used to realise the case-insensitive `i` flag. -/
def lcase (c : Char) : Char :=
  if 'A' ≤ c && c ≤ 'Z' then Char.ofNat (c.toNat + 32) else c

/-- Characters matched by the regex dot (everything except JS line
terminators). -/
def isDotChar (c : Char) : Bool :=
  !(c = '\n' || c = '\r' || c.toNat = 8232 || c.toNat = 8233)

def isColonWs (c : Char) : Bool := c = ':' || isWs c

/-- Match a (pre-lowercased) literal case-insensitively; on success return
the remaining input. -/
def stripLitCI : List Char → List Char → Option (List Char)
  | [], cs => some cs
  | _ :: _, [] => none
  | p :: ps, c :: cs => if lcase c = p then stripLitCI ps cs else none

/-- Leftmost-match search: try the position matcher at every start
position from left to right (exactly how an unanchored JS regex scans). -/
def scanFirst {α : Type} (f : List Char → Option α) : List Char → Option α
  | [] => f []
  | c :: cs =>
    match f (c :: cs) with
    | some x => some x
    | none => scanFirst f cs

/-! ### The individual patterns of `extractLabelData` -/

/-- `/Order ID:\s*(\d+)/i` tried at one position: literal, then greedy
whitespace, then at least one digit (the capture). -/
def tiktokAt (cs : List Char) : Option (List Char) :=
  match stripLitCI "order id:".data cs with
  | none => none
  | some r1 =>
    let r2 := r1.dropWhile isWs
    let ds := r2.takeWhile isDigitC
    if ds.isEmpty then none else some ds

/-- `/Order\s*(?:#|ID)[:\s]*(\d+)/i` tried at one position; returns the
captured digits and the rest of the input after the whole match (the rest
is what a global `matchAll` scan resumes from). -/
def etsyAt (cs : List Char) : Option (List Char × List Char) :=
  match stripLitCI "order".data cs with
  | none => none
  | some r1 =>
    let r2 := r1.dropWhile isWs
    let r3? : Option (List Char) :=
      match r2 with
      | '#' :: t => some t
      | _ => stripLitCI "id".data r2
    match r3? with
    | none => none
    | some r3 =>
      let r4 := r3.dropWhile isColonWs
      let ds := r4.takeWhile isDigitC
      if ds.isEmpty then none else some (ds, r4.drop ds.length)

/-- `\s*\n\s*`: under backtracking this consumes the whole maximal
whitespace run provided that run contains a newline. -/
def wsNl (cs : List Char) : Option (List Char) :=
  let run := cs.takeWhile isWs
  if run.contains '\n' then some (cs.drop run.length) else none

/-- `/Order date\s*\n\s*([A-Za-z]{3}\s\d{1,2},\s\d{4})/i` at one
position; returns the captured date substring. -/
def dateAt (cs : List Char) : Option (List Char) :=
  match stripLitCI "order date".data cs with
  | none => none
  | some r1 =>
    match wsNl r1 with
    | none => none
    | some r2 =>
      match r2 with
      | a :: b :: c :: rest =>
        if isAlphaC a && isAlphaC b && isAlphaC c then
          match rest with
          | w :: rest2 =>
            if isWs w then
              let ds := rest2.takeWhile isDigitC
              if ds.length = 1 || ds.length = 2 then
                match rest2.drop ds.length with
                | ',' :: w2 :: r5 =>
                  if isWs w2 then
                    let ys := r5.takeWhile isDigitC
                    if 4 ≤ ys.length then
                      some ([a, b, c] ++ [w] ++ ds ++ [','] ++ [w2] ++ ys.take 4)
                    else none
                  else none
                | _ => none
              else none
            else none
          | [] => none
        else none
      | _ => none

/-- `/Tracking\s*\n\s*(\d+)/i` at one position. -/
def trackingAt (cs : List Char) : Option (List Char) :=
  match stripLitCI "tracking".data cs with
  | none => none
  | some r1 =>
    match wsNl r1 with
    | none => none
    | some r2 =>
      let ds := r2.takeWhile isDigitC
      if ds.isEmpty then none else some ds

/-- tail of the buyer pattern: `\s*\(([^)]+)\)`, returning the username
capture. -/
def buyerTail (cs : List Char) : Option (List Char) :=
  let r := cs.dropWhile isWs
  match r with
  | '(' :: r2 =>
    let inner := r2.takeWhile (fun c => !(c = ')'))
    if inner.isEmpty then none
    else
      match r2.drop inner.length with
      | ')' :: _ => some inner
      | _ => none
  | _ => none

/-- lazy `(.*?)` followed by `buyerTail`: try name lengths 0, 1, 2, …
(shortest first), name characters restricted to the dot class. -/
def buyerLazy : Nat → List Char → List Char → Option (List Char × List Char)
  | n, acc, cs =>
    match buyerTail cs with
    | some u => some (acc.reverse, u)
    | none =>
      match n, cs with
      | n' + 1, c :: cs' =>
        if isDotChar c then buyerLazy n' (c :: acc) cs' else none
      | _, _ => none

/-- greedy `[:\s]+`: try the longest separator run first, shrinking on
failure of the remainder of the pattern. -/
def buyerGreedy : Nat → List Char → Option (List Char × List Char)
  | 0, _ => none
  | k + 1, r1 =>
    let tail := r1.drop (k + 1)
    match buyerLazy tail.length [] tail with
    | some res => some res
    | none => buyerGreedy k r1

/-- `/Buyer[:\s]+(.*?)\s*\(([^)]+)\)/i` at one position; returns the name
and username captures. -/
def buyerAt (cs : List Char) : Option (List Char × List Char) :=
  match stripLitCI "buyer".data cs with
  | none => none
  | some r1 => buyerGreedy (r1.takeWhile isColonWs).length r1

/-! ### Whole-text searches (the `.match` / `.matchAll` calls) -/

def tiktokFind (t : String) : Option String :=
  (scanFirst tiktokAt t.data).map fun l => String.mk l

def etsyFind (t : String) : Option String :=
  (scanFirst (fun cs => (etsyAt cs).map Prod.fst) t.data).map fun l => String.mk l

def dateFind (t : String) : Option String :=
  (scanFirst dateAt t.data).map fun l => String.mk l

def trackingFind (t : String) : Option String :=
  (scanFirst trackingAt t.data).map fun l => String.mk l

def buyerFind (t : String) : Option (String × String) :=
  (scanFirst buyerAt t.data).map fun p => (String.mk p.1, String.mk p.2)

/-- global scan for `/Order\s*(?:#|ID)[:\s]*(\d+)/gi` (`matchAll`): after
each match, scanning resumes right after the matched substring.  The fuel
argument is the input length, which bounds the number of scan steps. -/
def findAllAux : Nat → List Char → List (List Char)
  | 0, _ => []
  | _ + 1, [] => []
  | fuel + 1, c :: cs =>
    match etsyAt (c :: cs) with
    | some (cap, rest) => cap :: findAllAux fuel rest
    | none => findAllAux fuel cs

def findAllIds (t : String) : List String :=
  (findAllAux t.data.length t.data).map fun l => String.mk l

/-! ### JavaScript string and date helpers -/

/-- `String.prototype.trim`. -/
def jsTrim (s : String) : String :=
  String.mk (((s.data.dropWhile isWs).reverse.dropWhile isWs).reverse)

def digitsToNat (ds : List Char) : Nat :=
  ds.foldl (fun acc c => acc * 10 + (c.toNat - 48)) 0

def monthNum (a b c : Char) : Option Nat :=
  let s := [lcase a, lcase b, lcase c]
  if s = ['j', 'a', 'n'] then some 1
  else if s = ['f', 'e', 'b'] then some 2
  else if s = ['m', 'a', 'r'] then some 3
  else if s = ['a', 'p', 'r'] then some 4
  else if s = ['m', 'a', 'y'] then some 5
  else if s = ['j', 'u', 'n'] then some 6
  else if s = ['j', 'u', 'l'] then some 7
  else if s = ['a', 'u', 'g'] then some 8
  else if s = ['s', 'e', 'p'] then some 9
  else if s = ['o', 'c', 't'] then some 10
  else if s = ['n', 'o', 'v'] then some 11
  else if s = ['d', 'e', 'c'] then some 12
  else none

def isLeap (y : Nat) : Bool := y % 4 = 0 && (y % 100 ≠ 0 || y % 400 = 0)

def daysInMonth (m y : Nat) : Nat :=
  if m = 2 then (if isLeap y then 29 else 28)
  else if m = 4 || m = 6 || m = 9 || m = 11 then 30
  else 31

/-- Model of the JS engine's `new Date(str)` on the strings produced by
the date capture (`Mon D, YYYY` with whitespace-class separators):
month abbreviation is case-insensitive, the day must be 1..31 (else the
date is invalid), and a day beyond the month's length rolls over into the
next month exactly as V8 does.  Returns `(month, day, year)` as observed
through `getMonth() + 1`, `getDate()`, `getFullYear()`. -/
def jsDate (s : String) : Option (Nat × Nat × Nat) :=
  match s.data with
  | a :: b :: c :: rest =>
    match monthNum a b c with
    | none => none
    | some m =>
      let r1 := rest.dropWhile isWs
      let ds := r1.takeWhile isDigitC
      if ds.isEmpty || 2 < ds.length then none
      else
        let day := digitsToNat ds
        let r2 := r1.drop ds.length
        let r3 := match r2 with | ',' :: t => t | t => t
        let r4 := r3.dropWhile isWs
        let ys := r4.takeWhile isDigitC
        if ys.length ≠ 4 then none
        else
          let y := digitsToNat ys
          if day = 0 || 31 < day then none
          else if day ≤ daysInMonth m y then some (m, day, y)
          else some (m % 12 + 1, day - daysInMonth m y, y)
  | _ => none

def pad2 (n : Nat) : String := if n < 10 then "0" ++ toString n else toString n

/-! ### `extractLabelData` -/

/-- The metadata object returned by `extractLabelData`; the TikTok branch
leaves the buyer fields absent (`none`), the Etsy branch always sets them
(to `"-"` when the buyer pattern does not match). -/
structure LabelMeta where
  id : String
  type : String
  date : String
  tracking : String
  buyerName : Option String
  buyerUsername : Option String
deriving DecidableEq, Repr

/-- `extractLabelData` from src/processor.js, modelled on the text the
external PDF text extraction yields for the buffer.  The TikTok rule is
tried first; on failure the Etsy rule runs with its date / tracking /
buyer sub-extractions; otherwise the result is `none`. -/
def extractLabelData (text : String) : Option LabelMeta :=
  match tiktokFind text with
  | some tid => some ⟨jsTrim tid, "tiktok", "-", "-", none, none⟩
  | none =>
    match etsyFind text with
    | none => none
    | some oid =>
      let formattedDate :=
        match dateFind text with
        | none => "-"
        | some raw =>
          let dateStr := jsTrim raw
          match jsDate dateStr with
          | some (m, d, y) => pad2 m ++ "/" ++ pad2 d ++ "/" ++ toString y
          | none => dateStr
      let tracking :=
        match trackingFind text with
        | some tr => jsTrim tr
        | none => "-"
      let buyer :=
        match buyerFind text with
        | some (n, u) => (jsTrim n, jsTrim u)
        | none => ("-", "-")
      some ⟨jsTrim oid, "etsy", formattedDate, tracking, some buyer.1, some buyer.2⟩

/-! ### Crop geometry of `processLabels` -/

structure CropConfig where
  visualTopMargin : ℚ
  visualBottomMargin : ℚ
  visualLeftMargin : ℚ
  visualRightMargin : ℚ
deriving DecidableEq, Repr

def DEFAULT_CROP : CropConfig := ⟨40, 40, 10, 40⟩

def BULK_CROP_TOP : CropConfig := ⟨70, 70, 27, 64⟩

def BULK_CROP_BOTTOM : CropConfig := ⟨70, 70, 64, 28⟩

structure CropBox where
  x : ℚ
  y : ℚ
  w : ℚ
  h : ℚ
deriving DecidableEq, Repr

/-- The crop profile chosen by `processLabels` from the (possibly
auto-detected) bulk flag and position string. -/
def selectConfig (isBulk : Bool) (position : String) : CropConfig :=
  if isBulk then
    (if position = "bottom" then BULK_CROP_BOTTOM else BULK_CROP_TOP)
  else DEFAULT_CROP

/-- The `setCropBox` arguments computed by `processLabels`: the
half-sheet branch for pages lower than 500 points, the full-sheet branch
(label in the top half) otherwise.  The code applies this box
unconditionally; there is no error path. -/
def computeCropBox (width height : ℚ) (c : CropConfig) : CropBox :=
  if height < 500 then
    ⟨c.visualTopMargin, c.visualLeftMargin,
      width - c.visualTopMargin - c.visualBottomMargin,
      height - c.visualLeftMargin - c.visualRightMargin⟩
  else
    ⟨c.visualTopMargin, height / 2 + c.visualLeftMargin,
      width - c.visualTopMargin - c.visualBottomMargin,
      height / 2 - c.visualLeftMargin - c.visualRightMargin⟩

/-- The bulk auto-detection block of `processLabels`: runs only when bulk
was not requested and the page is taller than 600 points; consults the
slip's extracted id against the label text's id list, with the documented
fallbacks.  Returns the final `(isBulk, position)` pair. -/
def autoDetect (isBulk : Bool) (position : String) (height : ℚ)
    (labelText slipText : String) : Bool × String :=
  if isBulk = true ∨ ¬ 600 < height then (isBulk, position)
  else
    let target : Option String :=
      match extractLabelData slipText with
      | some m => if m.id = "" then none else some m.id
      | none => none
    match target with
    | some t =>
      let ms := findAllIds labelText
      if ms.isEmpty then (isBulk, position)
      else
        match ms.findIdx? (fun x => x == t) with
        | some idx => if idx = 1 then (true, "bottom") else (true, "top")
        | none => (true, "top")
    | none =>
      match extractLabelData labelText with
      | some m => if m.id = "" then (isBulk, position) else (true, "top")
      | none => (isBulk, position)

/-- The crop box `processLabels` ends up applying to the label's first
page, after option defaulting, auto-detection and profile selection. -/
def processLabelsCrop (optIsBulk : Bool) (optPosition : String)
    (width height : ℚ) (labelText slipText : String) : CropBox :=
  let pos0 := if optPosition = "" then "top" else optPosition
  let r := autoDetect optIsBulk pos0 height labelText slipText
  computeCropBox width height (selectConfig r.1 r.2)

/-! ### Reconciliation in `extractBulkLabels` -/

/-- The heuristic reconciliation step of `extractBulkLabels` for one
sheet page: from the whole-page, top-half and bottom-half id lists it
computes `(finalTopId, finalBotId)`, including the fallbacks to the
global list and the duplicate-avoidance block (which, exactly as in the
code, re-forces `pageIds[0]` / `pageIds[1]` whenever the global list has
at least two entries, distinct or not). -/
def reconcile (pageIds topIds botIds : List String) :
    Option String × Option String :=
  let ft : Option String :=
    match topIds with
    | t :: _ => some t
    | [] => pageIds[0]?
  let fb : Option String :=
    match botIds with
    | b :: _ => some b
    | [] => if 2 ≤ pageIds.length then pageIds[1]? else none
  match ft, fb with
  | some a, some b =>
    if a ≠ "" ∧ b ≠ "" ∧ a = b then
      if 2 ≤ pageIds.length then (pageIds[0]?, pageIds[1]?)
      else (some a, none)
    else (some a, some b)
  | x, y => (x, y)

/-- The registration step of `extractBulkLabels`: one `(id, position)`
record is pushed for each truthy final id. -/
def registerHalves (pageIds topIds botIds : List String) :
    List (String × String) :=
  let r := reconcile pageIds topIds botIds
  (match r.1 with
   | some s => if s ≠ "" then [(s, "top")] else []
   | none => []) ++
  (match r.2 with
   | some s => if s ≠ "" then [(s, "bottom")] else []
   | none => [])

/-! ### Slip grouping in `extractBulkSlips` -/

/-- `orderPages[id].push(i)`: append page index `i` to the entry of `id`
in the insertion-ordered association list, creating the entry at the end
if absent (JS object insertion). -/
def pushPage : List (String × List Nat) → String → Nat →
    List (String × List Nat)
  | [], id, i => [(id, [i])]
  | (k, ps) :: rest, id, i =>
    if k = id then (k, ps ++ [i]) :: rest
    else (k, ps) :: pushPage rest id i

/-- The page scan of `extractBulkSlips`: one pass in ascending page
order, with the carried `currentOrderId` cursor; a page's (possibly
absent) extracted id either switches the cursor or is inherited, and
pages are appended to the current order's list while the cursor is
truthy. -/
def slipLoop : List (Option String) → Nat → Option String →
    List (String × List Nat) → List (String × List Nat)
  | [], _, _, m => m
  | x :: xs, i, cur, m =>
    let cur' : Option String :=
      match x with
      | some s => if s ≠ "" then some s else cur
      | none => cur
    match cur' with
    | some id => slipLoop xs (i + 1) (some id) (pushPage m id i)
    | none => slipLoop xs (i + 1) none m

/-- A string is a canonical JS array index (all digits, no leading zero
except `"0"`, value below 2^32 - 1); such object keys are enumerated
first, in ascending numeric order, by `Object.entries`. -/
def isArrayIndexKey (s : String) : Bool :=
  match s.data with
  | [] => false
  | c :: cs =>
    (c :: cs).all isDigitC &&
    (decide (c ≠ '0') || cs.isEmpty) &&
    decide (digitsToNat (c :: cs) < 4294967295)

def keyVal (e : String × List Nat) : Nat := digitsToNat e.1.data

/-- `Object.entries` enumeration order for the accumulated map:
array-index-like keys first in ascending numeric order, then the
remaining keys in insertion order. -/
def jsEntries (l : List (String × List Nat)) : List (String × List Nat) :=
  List.insertionSort (fun a b => keyVal a ≤ keyVal b)
      (l.filter fun e => isArrayIndexKey e.1) ++
    (l.filter fun e => !isArrayIndexKey e.1)

/-- The grouping core of `extractBulkSlips` on the per-page extracted
ids: the scan followed by the `Object.entries` enumeration that builds
the output array. -/
def groupSlipsCore (ids : List (Option String)) : List (String × List Nat) :=
  jsEntries (slipLoop ids 0 none [])

/-- `extractBulkSlips`, modelled on the per-page texts the external text
extraction yields: the per-page id is `extractLabelData(...)?.id`, and
the groups are `(orderId, page index list)` pairs (the copied-pages
document built from each index list is an external PDF operation). -/
def extractBulkSlips (pageTexts : List String) : List (String × List Nat) :=
  groupSlipsCore (pageTexts.map fun t => (extractLabelData t).map (·.id))

/-! ### The bulk matching loop of the `/merge` endpoint (server.js) -/

structure HalfLabel where
  id : String
  position : String
deriving DecidableEq, Repr

structure SlipG where
  id : String
deriving DecidableEq, Repr

/-- `matchingLabel.position || "top"`. -/
def jsOr (s dflt : String) : String := if s = "" then dflt else s

/-- The bulk matching loop of `app.post("/merge")`: for each extracted
slip group in order, find the first extracted label half with the same
id; a match produces a merge invocation recorded as `(orderId,
position)`, a miss records the error string for that order id, and the
loop always continues with the remaining slips. -/
def bulkMatch : List SlipG → List HalfLabel →
    List (String × String) × List String
  | [], _ => ([], [])
  | s :: rest, labels =>
    match labels.find? (fun l => l.id == s.id) with
    | some l =>
      ((s.id, jsOr l.position "top") :: (bulkMatch rest labels).1,
        (bulkMatch rest labels).2)
    | none =>
      ((bulkMatch rest labels).1,
        ("No label found for Order ID " ++ s.id) :: (bulkMatch rest labels).2)

/-! ### Invariant vocabulary for the slip groups -/

/-- Two groups hold disjoint page index sets. -/
def disjEntry (a b : String × List Nat) : Prop := ∀ x, x ∈ a.2 → x ∉ b.2

/-- Invariant of the accumulated map after scanning the pages below
index `n`: distinct order ids, pairwise disjoint strictly increasing
index lists, all indices below `n`. -/
def InvM (n : Nat) (m : List (String × List Nat)) : Prop :=
  (m.map Prod.fst).Nodup ∧ m.Pairwise disjEntry ∧
    ∀ g ∈ m, List.Chain' (· < ·) g.2 ∧ ∀ x ∈ g.2, x < n

end EtsyLabel

namespace EtsyLabel

/-! ## Theorems -/

/-- Claim C1: for every label page size and every crop profile whose
margins satisfy the margin invariant against the target page's visual
dimensions (`visualTopMargin + visualBottomMargin < W`, and
`visualLeftMargin + visualRightMargin < H` for a half-sheet page below
the 500-point height threshold, or `< H/2` for a full-sheet page), the
crop-box width and height computed by the crop/rotate transform in
`processLabels` are strictly positive. -/
theorem claim1_crop_positive (W H : ℚ) (c : CropConfig)
    (hW : c.visualTopMargin + c.visualBottomMargin < W)
    (hHalf : H < 500 → c.visualLeftMargin + c.visualRightMargin < H)
    (hFull : ¬ H < 500 → c.visualLeftMargin + c.visualRightMargin < H / 2) :
    0 < (computeCropBox W H c).w ∧ 0 < (computeCropBox W H c).h := by
  unfold computeCropBox
  split_ifs with h
  · exact ⟨by dsimp only; linarith, by dsimp only; linarith [hHalf h]⟩
  · exact ⟨by dsimp only; linarith, by dsimp only; linarith [hFull h]⟩

theorem claim1_crop_positive_witness :
    0 < (computeCropBox 612 792 DEFAULT_CROP).w ∧
      0 < (computeCropBox 612 792 DEFAULT_CROP).h :=
  claim1_crop_positive 612 792 DEFAULT_CROP (by norm_num [DEFAULT_CROP])
    (by norm_num [DEFAULT_CROP]) (by norm_num [DEFAULT_CROP])

/-- Claim C3 (counterexample): the crop/rotate transform of
`processLabels` does not raise any failure when the computed crop height
is non-positive — at page size 200×40 with the selected standalone
profile it simply applies the degenerate crop box of height −10. -/
theorem claim3_counterexample :
    computeCropBox 200 40 DEFAULT_CROP =
      ⟨40, 10, 120, -10⟩ ∧ (computeCropBox 200 40 DEFAULT_CROP).h ≤ 0 := by
  constructor <;> norm_num [computeCropBox, DEFAULT_CROP]

/-- Claim C3 (amended): whenever the margin invariant is violated, the
crop/rotate transform of `processLabels` still applies the computed crop
box unchanged, so the applied box has non-positive width or height; no
explicit failure is raised and no clamping occurs. -/
theorem claim3_degenerate_crop_applied (W H : ℚ) (c : CropConfig) :
    (W ≤ c.visualTopMargin + c.visualBottomMargin →
      (computeCropBox W H c).w ≤ 0) ∧
    (H < 500 → H ≤ c.visualLeftMargin + c.visualRightMargin →
      (computeCropBox W H c).h ≤ 0) ∧
    (¬ H < 500 → H / 2 ≤ c.visualLeftMargin + c.visualRightMargin →
      (computeCropBox W H c).h ≤ 0) := by
  unfold computeCropBox
  split_ifs with h
  · exact ⟨fun hw => by dsimp only; linarith,
      fun _ hh => by dsimp only; linarith,
      fun hcon => absurd h hcon⟩
  · exact ⟨fun hw => by dsimp only; linarith,
      fun hcon => absurd hcon h,
      fun _ hh => by dsimp only; linarith⟩

theorem claim3_degenerate_crop_applied_witness :
    (40 : ℚ) < 500 ∧
    (40 : ℚ) ≤ DEFAULT_CROP.visualLeftMargin + DEFAULT_CROP.visualRightMargin ∧
    (computeCropBox 200 40 DEFAULT_CROP).h ≤ 0 :=
  ⟨by norm_num, by norm_num [DEFAULT_CROP],
    (claim3_degenerate_crop_applied 200 40 DEFAULT_CROP).2.1 (by norm_num)
      (by norm_num [DEFAULT_CROP])⟩

/-- Claim C9: extraction rules are evaluated in order with first match
winning — whenever the TikTok pattern matches the text, the TikTok
result is returned before the Etsy rule is tried, so
`extractLabelData "Order ID: 998877"` yields a TikTok record with
placeholder date/tracking even though the Etsy pattern also matches that
text. -/
theorem claim9_tiktok_first :
    (∀ t tid, tiktokFind t = some tid →
      extractLabelData t = some ⟨jsTrim tid, "tiktok", "-", "-", none, none⟩) ∧
    extractLabelData "Order ID: 998877" =
      some ⟨"998877", "tiktok", "-", "-", none, none⟩ ∧
    etsyFind "Order ID: 998877" = some "998877" := by
  refine ⟨?_, by decide, by decide⟩
  intro t tid h
  unfold extractLabelData
  rw [h]

theorem claim9_tiktok_first_witness :
    extractLabelData "Order ID: 998877" =
      some ⟨jsTrim "998877", "tiktok", "-", "-", none, none⟩ :=
  claim9_tiktok_first.1 "Order ID: 998877" "998877" (by decide)

/-- Claim C8: on the Etsy sample text the extraction returns order id
`"3953698770"`, the date reformatted to `"01/22/2026"` and tracking
`"9400123456"`; in general a captured date string that fails to parse is
kept verbatim, and an absent date or tracking yields the placeholder
`"-"`. -/
theorem claim8_etsy_extraction :
    extractLabelData
        "Order #: 3953698770\nOrder date\nJan 22, 2026\nTracking\n9400123456" =
      some ⟨"3953698770", "etsy", "01/22/2026", "9400123456", some "-", some "-"⟩ ∧
    (∀ t raw, tiktokFind t = none → (etsyFind t).isSome = true →
      dateFind t = some raw → jsDate (jsTrim raw) = none →
      (extractLabelData t).map LabelMeta.date = some (jsTrim raw)) ∧
    (∀ t, tiktokFind t = none → (etsyFind t).isSome = true →
      dateFind t = none →
      (extractLabelData t).map LabelMeta.date = some "-") ∧
    (∀ t, tiktokFind t = none → (etsyFind t).isSome = true →
      trackingFind t = none →
      (extractLabelData t).map LabelMeta.tracking = some "-") := by
  refine ⟨by decide, ?_, ?_, ?_⟩
  · intro t raw h1 h2 h3 h4
    obtain ⟨oid, ho⟩ := Option.isSome_iff_exists.mp h2
    simp only [extractLabelData, h1, ho, h3, h4, Option.map_some']
  · intro t h1 h2 h3
    obtain ⟨oid, ho⟩ := Option.isSome_iff_exists.mp h2
    simp only [extractLabelData, h1, ho, h3, Option.map_some']
  · intro t h1 h2 h3
    obtain ⟨oid, ho⟩ := Option.isSome_iff_exists.mp h2
    simp only [extractLabelData, h1, ho, h3, Option.map_some']

theorem claim8_etsy_extraction_witness :
    (extractLabelData "Order #: 5\nOrder date\nXyz 22, 2026").map
        LabelMeta.date = some "Xyz 22, 2026" ∧
    (extractLabelData "Order #: 6").map LabelMeta.date = some "-" ∧
    (extractLabelData "Order #: 6").map LabelMeta.tracking = some "-" :=
  ⟨(claim8_etsy_extraction.2.1 "Order #: 5\nOrder date\nXyz 22, 2026"
      "Xyz 22, 2026" (by decide) (by decide) (by decide) (by decide)).trans
      (by decide),
    claim8_etsy_extraction.2.2.1 "Order #: 6" (by decide) (by decide) (by decide),
    claim8_etsy_extraction.2.2.2 "Order #: 6" (by decide) (by decide) (by decide)⟩

/-- Claim C5 (code evaluated at the failing input): when the whole page
carries the single true identifier `"111"` twice and both half scans see
it, the duplicate-avoidance block of `extractBulkLabels` re-forces
`pageIds[0]` and `pageIds[1]` — both `"111"` — and registers two
`ExtractedHalf` records with the same id, contradicting the code's own
stated intent; the `["111"], ["111"], ["111"]` case of the claim does
hold. -/
theorem claim5_duplicate_emission :
    registerHalves ["111", "111"] ["111"] ["111"] =
      [("111", "top"), ("111", "bottom")] ∧
    List.dedup ["111", "111"] = ["111"] ∧
    reconcile ["111"] ["111"] ["111"] = (some "111", none) := by
  refine ⟨by decide, by decide, by decide⟩

/-- Claim C6: in the reconciliation step of `extractBulkLabels`, an
empty top-half id list makes the top assignment fall back to the first
whole-page id, and an empty bottom-half id list makes the bottom
assignment fall back to the second whole-page id (none when the
whole-page list has fewer than two entries); in particular whole-page
ids `["111","222"]` with empty half lists yield top `"111"` and bottom
`"222"`. -/
theorem claim6_fallbacks :
    reconcile ["111", "222"] [] [] = (some "111", some "222") ∧
    (∀ p b, (reconcile p [] b).1 = p[0]?) ∧
    (∀ p t, (reconcile p t []).2 = p[1]?) := by
  refine ⟨by decide, ?_, ?_⟩
  · intro p b
    rcases p with _ | ⟨p0, _ | ⟨p1, ps⟩⟩ <;> rcases b with _ | ⟨b0, bs⟩ <;>
      simp [reconcile] <;> split_ifs <;> simp_all
  · intro p t
    rcases p with _ | ⟨p0, _ | ⟨p1, ps⟩⟩ <;> rcases t with _ | ⟨t0, ts⟩ <;>
      simp [reconcile] <;> split_ifs <;> simp_all

/-- Claim C2 (counterexample): in the bulk merge path, an extracted
label half whose order id matches no slip group produces no error at
all — with slips `["2"]` and labels `["1" top, "2" bottom]` the half
`"1"` is silently dropped (the error list is empty). -/
theorem claim2_counterexample :
    bulkMatch [⟨"2"⟩] [⟨"1", "top"⟩, ⟨"2", "bottom"⟩] =
      ([("2", "bottom")], []) := by
  decide

/-- Claim C2 (amended): in the bulk merge path every slip group whose
order id matches no extracted half gets the error string naming that
order id, and every matched slip group is still processed (one missing
label never aborts the batch); unmatched extracted halves, however, are
silently dropped. -/
theorem claim2_unmatched_slips_reported (slips : List SlipG)
    (labels : List HalfLabel) :
    (∀ s ∈ slips, labels.find? (fun l => l.id == s.id) = none →
      ("No label found for Order ID " ++ s.id) ∈ (bulkMatch slips labels).2) ∧
    (∀ s ∈ slips, ∀ l, labels.find? (fun l2 => l2.id == s.id) = some l →
      (s.id, jsOr l.position "top") ∈ (bulkMatch slips labels).1) := by
  induction slips with
  | nil =>
    exact ⟨fun s hs => absurd hs (List.not_mem_nil s),
      fun s hs => absurd hs (List.not_mem_nil s)⟩
  | cons a rest ih =>
    constructor
    · intro s hs hfind
      rcases List.mem_cons.mp hs with rfl | hs'
      · simp only [bulkMatch, hfind]
        exact List.mem_cons_self _ _
      · simp only [bulkMatch]
        cases hf : labels.find? (fun l => l.id == a.id) with
        | some l => exact ih.1 s hs' hfind
        | none => exact List.mem_cons_of_mem _ (ih.1 s hs' hfind)
    · intro s hs l hfind
      rcases List.mem_cons.mp hs with rfl | hs'
      · simp only [bulkMatch, hfind]
        exact List.mem_cons_self _ _
      · simp only [bulkMatch]
        cases hf : labels.find? (fun l2 => l2.id == a.id) with
        | some l2 => exact List.mem_cons_of_mem _ (ih.2 s hs' l hfind)
        | none => exact ih.2 s hs' l hfind

theorem claim2_unmatched_slips_reported_witness :
    ("No label found for Order ID 9" ∈
      (bulkMatch [⟨"9"⟩, ⟨"7"⟩] [⟨"7", "bottom"⟩]).2) ∧
    ("7", "bottom") ∈ (bulkMatch [⟨"9"⟩, ⟨"7"⟩] [⟨"7", "bottom"⟩]).1 :=
  ⟨(claim2_unmatched_slips_reported [⟨"9"⟩, ⟨"7"⟩] [⟨"7", "bottom"⟩]).1
      ⟨"9"⟩ (by decide) (by decide),
    by
      have := (claim2_unmatched_slips_reported [⟨"9"⟩, ⟨"7"⟩]
        [⟨"7", "bottom"⟩]).2 ⟨"7"⟩ (by decide) ⟨"7", "bottom"⟩ (by decide)
      exact (by decide : jsOr (HalfLabel.mk "7" "bottom").position "top" =
        "bottom") ▸ this⟩

/-- Claim C4 (counterexample): with bulk not requested, a label page of
height 400 whose text contains the detectable identifier `"123"` does
not switch to bulk mode — the auto-detection block only runs for pages
taller than 600 points — so the standalone profile, not BulkTop, is
applied. -/
theorem claim4_counterexample :
    autoDetect false "top" 400 "Order #: 123" "" = (false, "top") ∧
    (extractLabelData "Order #: 123").isSome = true ∧
    selectConfig false "top" = DEFAULT_CROP ∧
    DEFAULT_CROP ≠ BULK_CROP_TOP := by
  refine ⟨?_, by decide, rfl, ?_⟩
  · unfold autoDetect
    rw [if_pos (Or.inr (by norm_num))]
  · intro h
    have := congrArg CropConfig.visualTopMargin h
    norm_num [DEFAULT_CROP, BULK_CROP_TOP] at this

/-- Claim C4 (amended): when bulk mode is not requested and the label
page is taller than 600 points, `processLabels` switches to bulk mode
whenever an identifier is detectable: if the slip yields no id but the
label text does, the BulkTop profile is chosen; if the slip yields a
target id and the label text contains identifiers, bulk mode is entered
with the BulkBottom profile exactly when the target is the second
identifier found, and BulkTop otherwise. -/
theorem claim4_autodetect_amended (pos : String) (h : ℚ) (lt st : String)
    (hh : 600 < h) :
    (extractLabelData st = none → ∀ m, extractLabelData lt = some m →
      m.id ≠ "" → autoDetect false pos h lt st = (true, "top")) ∧
    (∀ m, extractLabelData st = some m → m.id ≠ "" →
      (findAllIds lt).isEmpty = false →
      autoDetect false pos h lt st =
        (true, if (findAllIds lt).findIdx? (fun x => x == m.id) = some 1
               then "bottom" else "top")) := by
  have hgate : ¬ (false = true ∨ ¬ 600 < h) := by simp [hh]
  constructor
  · intro hst m hm hid
    unfold autoDetect
    rw [if_neg hgate]
    simp only [hst, hm, hid, if_false]
  · intro m hm hid hne
    unfold autoDetect
    rw [if_neg hgate]
    simp only [hm, hid, hne, if_false, Bool.false_eq_true]
    cases hidx : (findAllIds lt).findIdx? (fun x => x == m.id) with
    | none => simp [hidx]
    | some idx =>
      by_cases h1 : idx = 1 <;> simp [hidx, h1]

/-! ### Helper lemmas for the slip grouping invariants -/

theorem disjEntry_symm {a b : String × List Nat} (h : disjEntry a b) :
    disjEntry b a :=
  fun x hxb hxa => h x hxa hxb

theorem pushPage_elem (m : List (String × List Nat)) (id : String) (i : Nat) :
    ∀ g ∈ pushPage m id i, ∀ x ∈ g.2, x = i ∨ ∃ c ∈ m, x ∈ c.2 := by
  induction m with
  | nil =>
    intro g hg x hx
    simp only [pushPage, List.mem_singleton] at hg
    subst hg
    simp only [List.mem_singleton] at hx
    exact Or.inl hx
  | cons hd tl ih =>
    intro g hg x hx
    obtain ⟨k, ps⟩ := hd
    simp only [pushPage] at hg
    by_cases hk : k = id
    · rw [if_pos hk, List.mem_cons] at hg
      rcases hg with rfl | hg
      · simp only [List.mem_append, List.mem_singleton] at hx
        rcases hx with hx | rfl
        · exact Or.inr ⟨(k, ps), List.mem_cons_self _ _, hx⟩
        · exact Or.inl rfl
      · exact Or.inr ⟨g, List.mem_cons_of_mem _ hg, hx⟩
    · rw [if_neg hk, List.mem_cons] at hg
      rcases hg with rfl | hg
      · exact Or.inr ⟨(k, ps), List.mem_cons_self _ _, hx⟩
      · rcases ih g hg x hx with hxi | ⟨c, hc, hxc⟩
        · exact Or.inl hxi
        · exact Or.inr ⟨c, List.mem_cons_of_mem _ hc, hxc⟩

theorem pushPage_fst (m : List (String × List Nat)) (id : String) (i : Nat) :
    (pushPage m id i).map Prod.fst =
      if id ∈ m.map Prod.fst then m.map Prod.fst
      else m.map Prod.fst ++ [id] := by
  induction m with
  | nil => simp [pushPage]
  | cons hd tl ih =>
    obtain ⟨k, ps⟩ := hd
    simp only [pushPage]
    by_cases hk : k = id
    · rw [if_pos hk, List.map_cons, List.map_cons,
        if_pos (by simp [List.mem_cons, hk])]
    · rw [if_neg hk, List.map_cons, List.map_cons, ih]
      by_cases hid : id ∈ tl.map Prod.fst
      · rw [if_pos hid, if_pos (by simp [List.mem_cons, hid])]
      · rw [if_neg hid,
          if_neg (by
            simp only [List.mem_cons]
            rintro (h | h)
            · exact hk h.symm
            · exact hid h),
          List.cons_append]

theorem pushPage_nodup (m : List (String × List Nat)) (id : String) (i : Nat)
    (h : (m.map Prod.fst).Nodup) : ((pushPage m id i).map Prod.fst).Nodup := by
  rw [pushPage_fst]
  split_ifs with hid
  · exact h
  · refine h.append (List.nodup_singleton id) ?_
    intro a ha hb
    simp only [List.mem_singleton] at hb
    subst hb
    exact hid ha

theorem chainLt_append_singleton (ps : List Nat) (i : Nat)
    (hch : List.Chain' (· < ·) ps) (hlt : ∀ x ∈ ps, x < i) :
    List.Chain' (· < ·) (ps ++ [i]) := by
  induction ps with
  | nil => simp
  | cons a tl ih =>
    rw [List.cons_append, List.chain'_cons']
    constructor
    · intro y hy
      cases tl with
      | nil =>
        simp only [List.nil_append, List.head?_cons, Option.mem_def,
          Option.some.injEq] at hy
        subst hy
        exact hlt a (List.mem_cons_self _ _)
      | cons b tl2 =>
        simp only [List.cons_append, List.head?_cons, Option.mem_def,
          Option.some.injEq] at hy
        subst hy
        exact (List.chain'_cons.mp hch).1
    · exact ih hch.tail fun x hx => hlt x (List.mem_cons_of_mem _ hx)

theorem pushPage_chain (m : List (String × List Nat)) (id : String) (i : Nat)
    (h : ∀ g ∈ m, List.Chain' (· < ·) g.2 ∧ ∀ x ∈ g.2, x < i) :
    ∀ g ∈ pushPage m id i,
      List.Chain' (· < ·) g.2 ∧ ∀ x ∈ g.2, x < i + 1 := by
  induction m with
  | nil =>
    intro g hg
    simp only [pushPage, List.mem_singleton] at hg
    subst hg
    exact ⟨by simp, by simp⟩
  | cons hd tl ih =>
    intro g hg
    obtain ⟨k, ps⟩ := hd
    have hhd := h (k, ps) (List.mem_cons_self _ _)
    simp only [pushPage] at hg
    by_cases hk : k = id
    · rw [if_pos hk, List.mem_cons] at hg
      rcases hg with rfl | hg
      · refine ⟨chainLt_append_singleton ps i hhd.1 hhd.2, ?_⟩
        intro x hx
        simp only [List.mem_append, List.mem_singleton] at hx
        rcases hx with hx | rfl
        · exact Nat.lt_succ_of_lt (hhd.2 x hx)
        · exact Nat.lt_succ_self _
      · have := h g (List.mem_cons_of_mem _ hg)
        exact ⟨this.1, fun x hx => Nat.lt_succ_of_lt (this.2 x hx)⟩
    · rw [if_neg hk, List.mem_cons] at hg
      rcases hg with rfl | hg
      · exact ⟨hhd.1, fun x hx => Nat.lt_succ_of_lt (hhd.2 x hx)⟩
      · exact ih (fun g' hg' => h g' (List.mem_cons_of_mem _ hg')) g hg

theorem pushPage_pairwise (m : List (String × List Nat)) (id : String)
    (i : Nat) (hpw : m.Pairwise disjEntry)
    (hb : ∀ g ∈ m, ∀ x ∈ g.2, x < i) :
    (pushPage m id i).Pairwise disjEntry := by
  induction m with
  | nil => simp [pushPage]
  | cons hd tl ih =>
    obtain ⟨k, ps⟩ := hd
    rw [List.pairwise_cons] at hpw
    have hbhd := hb (k, ps) (List.mem_cons_self _ _)
    have hbtl : ∀ g ∈ tl, ∀ x ∈ g.2, x < i :=
      fun g hg => hb g (List.mem_cons_of_mem _ hg)
    simp only [pushPage]
    by_cases hk : k = id
    · rw [if_pos hk, List.pairwise_cons]
      refine ⟨?_, hpw.2⟩
      intro b hbmem x hx
      simp only [List.mem_append, List.mem_singleton] at hx
      rcases hx with hx | rfl
      · exact hpw.1 b hbmem x hx
      · intro hxi
        exact Nat.lt_irrefl _ (hbtl b hbmem _ hxi)
    · rw [if_neg hk, List.pairwise_cons]
      refine ⟨?_, ih hpw.2 hbtl⟩
      intro b hbmem x hx hxb
      rcases pushPage_elem tl id i b hbmem x hxb with rfl | ⟨c, hc, hxc⟩
      · exact Nat.lt_irrefl x (hbhd x hx)
      · exact hpw.1 c hc x hx hxc

theorem invM_push {n : Nat} {m : List (String × List Nat)} (id : String)
    (h : InvM n m) : InvM (n + 1) (pushPage m id n) :=
  ⟨pushPage_nodup m id n h.1,
    pushPage_pairwise m id n h.2.1 (fun g hg => (h.2.2 g hg).2),
    pushPage_chain m id n h.2.2⟩

theorem invM_mono {n : Nat} {m : List (String × List Nat)} (h : InvM n m) :
    InvM (n + 1) m :=
  ⟨h.1, h.2.1, fun g hg =>
    ⟨(h.2.2 g hg).1, fun x hx => Nat.lt_succ_of_lt ((h.2.2 g hg).2 x hx)⟩⟩

theorem slipLoop_invM :
    ∀ (ids : List (Option String)) (n : Nat) (cur : Option String)
      (m : List (String × List Nat)), InvM n m →
      ∃ N, InvM N (slipLoop ids n cur m) := by
  intro ids
  induction ids with
  | nil => exact fun n cur m h => ⟨n, h⟩
  | cons x xs ih =>
    intro n cur m h
    simp only [slipLoop]
    split
    · exact ih (n + 1) _ _ (invM_push _ h)
    · exact ih (n + 1) none m (invM_mono h)

theorem jsEntries_perm (l : List (String × List Nat)) :
    (jsEntries l).Perm l :=
  ((List.perm_insertionSort _ _).append_right _).trans
    (List.filter_append_perm _ l)

theorem slipLoop_lb (k0 : Nat) :
    ∀ (ids : List (Option String)) (n : Nat) (cur : Option String)
      (m : List (String × List Nat)), k0 ≤ n →
      (∀ g ∈ m, ∀ x ∈ g.2, k0 ≤ x) →
      ∀ g ∈ slipLoop ids n cur m, ∀ x ∈ g.2, k0 ≤ x := by
  intro ids
  induction ids with
  | nil => exact fun n cur m _ hm => hm
  | cons x xs ih =>
    intro n cur m hn hm
    simp only [slipLoop]
    split
    · refine ih (n + 1) _ _ (Nat.le_succ_of_le hn) ?_
      intro g hg y hy
      rcases pushPage_elem m _ n g hg y hy with rfl | ⟨c, hc, hyc⟩
      · exact hn
      · exact hm c hc y hyc
    · exact ih (n + 1) none m (Nat.le_succ_of_le hn) hm

theorem slipLoop_replicate (rest : List (Option String)) :
    ∀ (k n : Nat) (m : List (String × List Nat)),
      slipLoop (List.replicate k none ++ rest) n none m =
        slipLoop rest (n + k) none m := by
  intro k
  induction k with
  | zero => intro n m; simp
  | succ k ihk =>
    intro n m
    rw [List.replicate_succ, List.cons_append]
    show slipLoop (List.replicate k none ++ rest) (n + 1) none m = _
    rw [ihk (n + 1) m]
    congr 1
    omega

/-- Claim C7: `extractBulkSlips` scans pages in ascending order with a
single carried `currentOrderId` cursor — an identifier starts or
switches the current order, a page without one inherits it, and pages
preceding the first identifier are dropped; the 3-page document with ids
`A`, none, `B` yields exactly the groups `A → [0,1]` and `B → [2]`. -/
theorem claim7_slip_grouping :
    groupSlipsCore [some "A", none, some "B"] =
      [("A", [0, 1]), ("B", [2])] ∧
    extractBulkSlips ["Order #: 31", "", "Order #: 32"] =
      [("31", [0, 1]), ("32", [2])] ∧
    ∀ (k : Nat) (rest : List (Option String)) (g : String × List Nat)
      (x : Nat), g ∈ groupSlipsCore (List.replicate k none ++ rest) →
      x ∈ g.2 → k ≤ x := by
  refine ⟨by decide, by decide, ?_⟩
  intro k rest g x hg hx
  have hperm :=
    jsEntries_perm (slipLoop (List.replicate k none ++ rest) 0 none [])
  have hg' : g ∈ slipLoop (List.replicate k none ++ rest) 0 none [] :=
    hperm.mem_iff.mp hg
  rw [slipLoop_replicate rest k 0 [], Nat.zero_add] at hg'
  exact slipLoop_lb k rest k none [] (Nat.le_refl k) (by simp) g hg' x hx

theorem claim7_slip_grouping_witness :
    ("9", [1]) ∈ groupSlipsCore (List.replicate 1 none ++ [some "9"]) ∧
    (1 : Nat) ∈ [1] ∧ (1 : Nat) ≤ 1 :=
  ⟨by decide, by decide,
    claim7_slip_grouping.2.2 1 [some "9"] ("9", [1]) 1 (by decide) (by decide)⟩

/-- Claim C10: the slip groups returned by `extractBulkSlips` partition
the attributed pages — each distinct order id labels at most one group,
the groups' page index sets are pairwise disjoint, and within each group
the page indices are strictly increasing in original page order. -/
theorem claim10_group_invariants (pageTexts : List String) :
    ((extractBulkSlips pageTexts).map Prod.fst).Nodup ∧
    (extractBulkSlips pageTexts).Pairwise disjEntry ∧
    ∀ g ∈ extractBulkSlips pageTexts, List.Chain' (· < ·) g.2 := by
  obtain ⟨N, h1, h2, h3⟩ :=
    slipLoop_invM (pageTexts.map fun t => (extractLabelData t).map (·.id))
      0 none [] ⟨by simp, by simp, by simp⟩
  have hperm : (extractBulkSlips pageTexts).Perm
      (slipLoop (pageTexts.map fun t => (extractLabelData t).map (·.id))
        0 none []) :=
    jsEntries_perm _
  refine ⟨?_, ?_, ?_⟩
  · exact (hperm.map Prod.fst).nodup_iff.mpr h1
  · exact (List.Perm.pairwise_iff (fun h => disjEntry_symm h) hperm).mpr h2
  · intro g hg
    exact (h3 g (hperm.mem_iff.mp hg)).1

theorem claim10_group_invariants_witness :
    ("12", [0, 1]) ∈ extractBulkSlips ["Order #: 12\na", "b", "Order #: 5"] ∧
    List.Chain' (· < ·) [0, 1] :=
  ⟨by decide,
    (claim10_group_invariants ["Order #: 12\na", "b", "Order #: 5"]).2.2
      ("12", [0, 1]) (by decide)⟩

theorem claim4_autodetect_amended_witness :
    autoDetect false "top" 700 "Order #: 123" "" = (true, "top") ∧
    autoDetect false "top" 700 "Order #: 44\nOrder #: 55" "Order #: 55" =
      (true, "bottom") :=
  ⟨(claim4_autodetect_amended "top" 700 "Order #: 123" "" (by norm_num)).1
      (by decide) ⟨"123", "etsy", "-", "-", some "-", some "-"⟩ (by decide)
      (by decide),
    ((claim4_autodetect_amended "top" 700 "Order #: 44\nOrder #: 55"
        "Order #: 55" (by norm_num)).2
        ⟨"55", "etsy", "-", "-", some "-", some "-"⟩ (by decide) (by decide)
        (by decide)).trans (by decide)⟩

end EtsyLabel
